import Mathlib

/-!
Verification of the daily-planner bot's recurrence engine, task lifecycle,
digest composer, conversation engine and confirmation gate.

Shallow embedding conventions:

* A Go `time.Time` is modelled as a civil datetime `GoInstant` (year, month,
  day, second-of-day).  The whole program runs in one fixed-offset location
  (`time.Local`, no DST modelled): every instant it ever compares or stores is
  produced by `time.Now()` / `time.Date(..., now.Location())` in that same
  location.  Under a fixed offset, `Before`/`After` on absolute instants
  coincide with lexicographic comparison of the civil fields, and adding
  `k * 24 * time.Hour` shifts the civil date by `k` days keeping the
  time-of-day; both facts are used by the embedding.
* Go `int` fields are `Int`; ids (`uint`) are `Nat`.
* The gorm-backed task store is a `List Task`; the gorm operations the
  repository uses are embedded with their documented semantics
  (`First` → first match or `ErrRecordNotFound`, `Save` → update the row with
  the same primary key, `Delete` → remove matching rows, reporting no error
  when nothing matches).
* Fallible operations return `Except ServiceError`.
-/

namespace DailyPlanner

/-- A civil datetime in the process's single fixed-offset location:
`sec` is the second of the day (0 ≤ sec < 86400 for instants produced by the
clock). -/
structure GoInstant where
  year : Int
  month : Int
  day : Int
  sec : Int
deriving DecidableEq

/-- Embedding of Go `a.Before(b)` (comparison of absolute instants) for two
instants carried in the same fixed-offset location: lexicographic comparison
of the civil fields. -/
def GoInstant.before (a b : GoInstant) : Bool :=
  if a.year ≠ b.year then decide (a.year < b.year)
  else if a.month ≠ b.month then decide (a.month < b.month)
  else if a.day ≠ b.day then decide (a.day < b.day)
  else decide (a.sec < b.sec)

/-- Specification-level non-strict order on instants ("a is no later than b"),
written independently of `GoInstant.before`. -/
def lexLe (a b : GoInstant) : Prop :=
  a.year < b.year ∨
    (a.year = b.year ∧
      (a.month < b.month ∨
        (a.month = b.month ∧
          (a.day < b.day ∨ (a.day = b.day ∧ a.sec ≤ b.sec)))))

instance (a b : GoInstant) : Decidable (lexLe a b) := by
  unfold lexLe; infer_instance

theorem before_eq_false_iff (a b : GoInstant) :
    GoInstant.before a b = false ↔ lexLe b a := by
  unfold GoInstant.before lexLe
  split_ifs <;> simp_all <;> omega

theorem before_eq_true_iff (a b : GoInstant) :
    GoInstant.before a b = true ↔ ¬ lexLe b a := by
  rw [← before_eq_false_iff]
  cases h : GoInstant.before a b <;> simp

theorem lexLe_refl (a : GoInstant) : lexLe a a := by unfold lexLe; omega

theorem lexLe_trans {a b c : GoInstant} (h₁ : lexLe a b) (h₂ : lexLe b c) :
    lexLe a c := by
  unfold lexLe at h₁ h₂ ⊢; omega

theorem lexLe_total (a b : GoInstant) : lexLe a b ∨ lexLe b a := by
  unfold lexLe; omega

theorem lexLe_antisymm {a b : GoInstant} (h₁ : lexLe a b) (h₂ : lexLe b a) :
    a = b := by
  cases a; cases b
  unfold lexLe at h₁ h₂
  simp_all only [GoInstant.mk.injEq]
  omega

/-- Go's `%` is truncated division, but for the divisibility-by-zero tests in
`isLeapYear` truncated and Euclidean remainder agree, so `Int.emod` is used. -/
def isLeapYear (year : Int) : Bool :=
  year % 4 == 0 && (year % 100 != 0 || year % 400 == 0)

/-- Embedding of the service's `daysInMonth(month, year)` (and of the
`time.Date(year, month+1, 0, ...).Day()` idiom in `bot.go`): the number of
days of a month `1..12` in the proleptic Gregorian calendar, which is what
Go's date normalization computes. -/
def daysInMonth (month year : Int) : Int :=
  if month == 2 then (if isLeapYear year then 29 else 28)
  else if month == 4 || month == 6 || month == 9 || month == 11 then 30
  else 31

/-- Successor calendar day, keeping the time-of-day. -/
def succDay (t : GoInstant) : GoInstant :=
  if t.day < daysInMonth t.month t.year then ⟨t.year, t.month, t.day + 1, t.sec⟩
  else if t.month < 12 then ⟨t.year, t.month + 1, 1, t.sec⟩
  else ⟨t.year + 1, 1, 1, t.sec⟩

/-- Predecessor calendar day, keeping the time-of-day. -/
def predDay (t : GoInstant) : GoInstant :=
  if 1 < t.day then ⟨t.year, t.month, t.day - 1, t.sec⟩
  else if 1 < t.month then ⟨t.year, t.month - 1, daysInMonth (t.month - 1) t.year, t.sec⟩
  else ⟨t.year - 1, 12, daysInMonth 12 (t.year - 1), t.sec⟩

def addDaysNat : GoInstant → Nat → GoInstant
  | t, 0 => t
  | t, n + 1 => addDaysNat (succDay t) n

def subDaysNat : GoInstant → Nat → GoInstant
  | t, 0 => t
  | t, n + 1 => subDaysNat (predDay t) n

/-- Embedding of `t.Add(time.Duration(n) * 24 * time.Hour)` in a fixed-offset
location: shift the civil date by `n` days. -/
def addDaysInt (t : GoInstant) (n : Int) : GoInstant :=
  if 0 ≤ n then addDaysNat t n.toNat else subDaysNat t (-n).toNat

/-- Embedding of `model.Task` (daily-planner/internal/model/task.go). -/
structure Task where
  id : Nat
  userID : Nat
  categoryID : Option Nat
  title : String
  description : String
  deadline : Option GoInstant
  isCompleted : Bool
  isRecurring : Bool
  recurType : String
  recurDay : Int
  recurWindow : Int
  lastCompletedAt : Option GoInstant
  createdAt : GoInstant
  updatedAt : GoInstant
deriving DecidableEq

/-- Go `unicode`-style lowercasing restricted to the character ranges the bot's
token vocabulary uses (ASCII `A`–`Z`, Cyrillic `А`–`Я` and `Ё`); on these
ranges Go's `strings.ToLower` applies exactly these mappings. -/
def goCharToLower (c : Char) : Char :=
  let n := c.toNat
  if 65 ≤ n && n ≤ 90 then Char.ofNat (n + 32)
  else if 1040 ≤ n && n ≤ 1071 then Char.ofNat (n + 32)
  else if n == 1025 then Char.ofNat 1105
  else c

/-- Embedding of `strings.ToLower`. -/
def goStringToLower (s : String) : String :=
  ⟨s.data.map goCharToLower⟩

def isGoSpace (c : Char) : Bool :=
  c == ' ' || c == '\t' || c == '\n' || c == '\r'

/-- Embedding of `strings.TrimSpace` (the Unicode space classes beyond ASCII
whitespace never occur in the modelled inputs). -/
def goTrimSpace (s : String) : String :=
  ⟨((s.data.dropWhile isGoSpace).reverse.dropWhile isGoSpace).reverse⟩

/-- The effective due day of the month used by `recurringDue`
(part_002 lines 99–103): the configured day, clamped to the last day of the
month when the month is shorter. -/
def effectiveDueDay (recurDay month year : Int) : Int :=
  if recurDay > daysInMonth month year then daysInMonth month year else recurDay

/-- The due instant `recurringDue` builds with
`time.Date(year, month, dueDay, 0, 0, 0, 0, now.Location())`: the start of the
effective due day in `now`'s month. -/
def dueDateFor (task : Task) (now : GoInstant) : GoInstant :=
  ⟨now.year, now.month, effectiveDueDay task.recurDay now.month now.year, 0⟩

/-- Window start: `start := dueDate.Add(-window)` with `window = RecurWindow * 24 * Hour`. -/
def windowStart (task : Task) (now : GoInstant) : GoInstant :=
  addDaysInt (dueDateFor task now) (-task.recurWindow)

/-- Window stop: `end := dueDate.Add(window)`. -/
def windowStop (task : Task) (now : GoInstant) : GoInstant :=
  addDaysInt (dueDateFor task now) task.recurWindow

/-- The "already satisfied for this occurrence" sub-check of `recurringDue`
(part_002 lines 114–119): `last_completed_at` is present, lies inside
`[start, end]`, and shares `now`'s month and year. -/
def lastSatisfiedInWindow (task : Task) (ws we now : GoInstant) : Bool :=
  match task.lastCompletedAt with
  | none => false
  | some last =>
      !(last.before ws) && !(we.before last) &&
        (last.month == now.month) && (last.year == now.year)

/-- Embedding of `ReminderService.recurringDue` (part_002 lines 93–122): the
due-now check of the Temporal Recurrence Engine. -/
def recurringDue (task : Task) (now : GoInstant) : Bool :=
  if !task.isRecurring || goStringToLower task.recurType != "monthly" ||
      decide (task.recurDay ≤ 0) then
    false
  else
    let ws := windowStart task now
    let we := windowStop task now
    if now.before ws || we.before now then false
    else if lastSatisfiedInWindow task ws we now then false
    else true

/-- Embedding of `isRecurringDoneInWindow` (bot.go lines 2035–2060), written
out independently of `recurringDue` because the source duplicates the window
arithmetic at this call site.  `endOfMonth` is the
`time.Date(year, month+1, 0, ...).Day()` idiom, i.e. `daysInMonth`.  The
source converts `last` into `now`'s location before reading its month and
year; under the single-location model that conversion is the identity. -/
def isRecurringDoneInWindow (task : Task) (now : GoInstant) : Bool :=
  if !task.isRecurring then false
  else
    match task.lastCompletedAt with
    | none => false
    | some last =>
        let endOfMonth := daysInMonth now.month now.year
        let dueDay := if task.recurDay > endOfMonth then endOfMonth else task.recurDay
        let dueDate : GoInstant := ⟨now.year, now.month, dueDay, 0⟩
        let ws := addDaysInt dueDate (-task.recurWindow)
        let we := addDaysInt dueDate task.recurWindow
        if last.before ws || we.before last then false
        else if last.month != now.month || last.year != now.year then false
        else true

/-- The month/year pair following a given month, as the spec's "following
month". -/
def nextMonthPair (year month : Int) : Int × Int :=
  if month == 12 then (year + 1, 1) else (year, month + 1)

theorem monthlyGuard_false {task : Task}
    (hrec : task.isRecurring = true)
    (htype : goStringToLower task.recurType = "monthly")
    (hday : 1 ≤ task.recurDay) :
    (!task.isRecurring || goStringToLower task.recurType != "monthly" ||
      decide (task.recurDay ≤ 0)) = false := by
  rw [hrec, htype]
  simp only [Bool.not_true, bne_self_eq_false, Bool.false_or,
    Bool.or_eq_false_iff, decide_eq_false_iff_not]
  omega

theorem recurringDue_eq_body {task : Task} (now : GoInstant)
    (hrec : task.isRecurring = true)
    (htype : goStringToLower task.recurType = "monthly")
    (hday : 1 ≤ task.recurDay) :
    recurringDue task now =
      (if now.before (windowStart task now) || (windowStop task now).before now
       then false
       else if lastSatisfiedInWindow task (windowStart task now)
              (windowStop task now) now then false else true) := by
  unfold recurringDue
  rw [monthlyGuard_false hrec htype hday]
  simp

theorem recurringDue_iff_of_not_satisfied {task : Task} (now : GoInstant)
    (hrec : task.isRecurring = true)
    (htype : goStringToLower task.recurType = "monthly")
    (hday : 1 ≤ task.recurDay)
    (hns : lastSatisfiedInWindow task (windowStart task now)
      (windowStop task now) now = false) :
    (recurringDue task now = true ↔
      lexLe (windowStart task now) now ∧ lexLe now (windowStop task now)) := by
  rw [recurringDue_eq_body now hrec htype hday, hns]
  cases hb1 : now.before (windowStart task now) <;>
    cases hb2 : (windowStop task now).before now <;>
      simp_all [before_eq_false_iff, before_eq_true_iff]

theorem windowStart_congr (task : Task) {a b : GoInstant}
    (hy : a.year = b.year) (hm : a.month = b.month) :
    windowStart task a = windowStart task b := by
  unfold windowStart dueDateFor
  rw [hy, hm]

theorem windowStop_congr (task : Task) {a b : GoInstant}
    (hy : a.year = b.year) (hm : a.month = b.month) :
    windowStop task a = windowStop task b := by
  unfold windowStop dueDateFor
  rw [hy, hm]

/-- C1. For a recurring monthly task with window radius `w ≥ 0` and no
prior satisfaction, the due-now check `recurringDue` is true exactly when
`now` lies in the inclusive window `[due − w days, due + w days]` around the
due instant (`windowStart`/`windowStop` are exactly `dueDateFor ∓ w` civil
days, the due instant being the start of the effective due day), and false at
any instant strictly outside either bound; both boundary instants count as
inside because the code negates the strict `Before`/`After` comparisons. -/
theorem c1_due_window_inclusive (task : Task) (now : GoInstant)
    (hrec : task.isRecurring = true)
    (htype : goStringToLower task.recurType = "monthly")
    (hday : 1 ≤ task.recurDay)
    (hw : 0 ≤ task.recurWindow)
    (hsat : task.lastCompletedAt = none) :
    recurringDue task now = true ↔
      lexLe (windowStart task now) now ∧ lexLe now (windowStop task now) := by
  refine recurringDue_iff_of_not_satisfied now hrec htype hday ?_
  unfold lastSatisfiedInWindow
  rw [hsat]

/-- Closed witness for C1: a task due on the 15th with window 2, checked at
2025-01-16 01:00, inside the window. -/
theorem c1_due_window_inclusive_witness :
    (let task : Task := ⟨1, 1, none, "rent", "", none, false, true, "monthly",
      15, 2, none, ⟨2025, 1, 1, 0⟩, ⟨2025, 1, 1, 0⟩⟩
     let now : GoInstant := ⟨2025, 1, 16, 3600⟩
     task.isRecurring = true ∧ goStringToLower task.recurType = "monthly" ∧
       1 ≤ task.recurDay ∧ 0 ≤ task.recurWindow ∧
       task.lastCompletedAt = none ∧
       (recurringDue task now = true ↔
         lexLe (windowStart task now) now ∧
           lexLe now (windowStop task now))) :=
  ⟨by decide, by decide, by decide, by decide, by decide,
    c1_due_window_inclusive _ _ (by decide) (by decide) (by decide) (by decide)
      (by decide)⟩

/-- C2. For every recurrence day `d ∈ [1, 31]`, the effective due day used
by the due-window computation equals `d` when `d` does not exceed the day
count of `now`'s month and otherwise equals the last day of that month; in
particular `d = 31` yields April 30 in April, Feb 28 in a non-leap February
and Feb 29 in a leap February. -/
theorem c2_effective_due_day (d : Int) (now : GoInstant)
    (h1 : 1 ≤ d) (h31 : d ≤ 31) :
    (d ≤ daysInMonth now.month now.year →
      effectiveDueDay d now.month now.year = d) ∧
    (daysInMonth now.month now.year < d →
      effectiveDueDay d now.month now.year = daysInMonth now.month now.year) ∧
    effectiveDueDay 31 4 2025 = 30 ∧
    effectiveDueDay 31 2 2025 = 28 ∧
    effectiveDueDay 31 2 2024 = 29 := by
  refine ⟨?_, ?_, by decide, by decide, by decide⟩ <;>
    (intro h; unfold effectiveDueDay; split <;> omega)

/-- Closed witness for C2 at `d = 31` in February 2025. -/
theorem c2_effective_due_day_witness :
    ((1 : Int) ≤ 31 ∧ (31 : Int) ≤ 31) ∧
    (((31 : Int) ≤ daysInMonth 2 2025 → effectiveDueDay 31 2 2025 = 31) ∧
      (daysInMonth 2 2025 < 31 →
        effectiveDueDay 31 2 2025 = daysInMonth 2 2025) ∧
      effectiveDueDay 31 4 2025 = 30 ∧
      effectiveDueDay 31 2 2025 = 28 ∧
      effectiveDueDay 31 2 2024 = 29) :=
  ⟨⟨by decide, by decide⟩,
    c2_effective_due_day 31 ⟨2025, 2, 10, 0⟩ (by decide) (by decide)⟩

/-- C3. If a recurring monthly task's `last_completed_at` is an instant
`s` inside the window computed for `now` and sharing `now`'s month and year,
then the due-now check is false at every instant of that month/year (in
particular at every later instant inside the same window), and in the
following month it is true exactly inside that month's window. -/
theorem c3_satisfied_suppresses_until_next_month
    (task : Task) (now now₂ now₃ s : GoInstant)
    (hrec : task.isRecurring = true)
    (htype : goStringToLower task.recurType = "monthly")
    (hday : 1 ≤ task.recurDay)
    (hsat : task.lastCompletedAt = some s)
    (hin1 : lexLe (windowStart task now) s)
    (hin2 : lexLe s (windowStop task now))
    (hsy : s.year = now.year) (hsm : s.month = now.month) :
    (now₂.year = now.year → now₂.month = now.month →
      recurringDue task now₂ = false) ∧
    (now₃.year = (nextMonthPair now.year now.month).1 →
      now₃.month = (nextMonthPair now.year now.month).2 →
      (recurringDue task now₃ = true ↔
        lexLe (windowStart task now₃) now₃ ∧
          lexLe now₃ (windowStop task now₃))) := by
  constructor
  · intro h2y h2m
    have hws : windowStart task now₂ = windowStart task now :=
      windowStart_congr task h2y h2m
    have hwe : windowStop task now₂ = windowStop task now :=
      windowStop_congr task h2y h2m
    have hls : lastSatisfiedInWindow task (windowStart task now₂)
        (windowStop task now₂) now₂ = true := by
      unfold lastSatisfiedInWindow
      rw [hsat, hws, hwe]
      have h1 : s.before (windowStart task now) = false :=
        (before_eq_false_iff _ _).mpr hin1
      have h2 : (windowStop task now).before s = false :=
        (before_eq_false_iff _ _).mpr hin2
      simp [h1, h2, hsm, hsy, h2m, h2y]
    rw [recurringDue_eq_body now₂ hrec htype hday, hls]
    cases hb : (now₂.before (windowStart task now₂) ||
        (windowStop task now₂).before now₂) <;> simp [hb]
  · intro h3y h3m
    refine recurringDue_iff_of_not_satisfied now₃ hrec htype hday ?_
    unfold lastSatisfiedInWindow
    rw [hsat]
    unfold nextMonthPair at h3y h3m
    by_cases h12 : now.month = 12
    · have : s.year ≠ now₃.year := by simp [h12] at h3y; omega
      simp only [Bool.and_eq_false_iff]
      right
      simpa [beq_iff_eq] using this
    · have : s.month ≠ now₃.month := by
        have : (now.month == 12) = false := by simpa using h12
        simp [this] at h3m; omega
      simp only [Bool.and_eq_false_iff]
      left; right
      simpa [beq_iff_eq] using this

/-- Closed witness for C3: satisfied on 2025-01-14 (inside the ±2-day window
of the 15th); not due on 2025-01-16, due again on 2025-02-14 inside February's
window. -/
theorem c3_satisfied_suppresses_until_next_month_witness :
    (let task : Task := ⟨1, 1, none, "rent", "", none, false, true, "monthly",
      15, 2, some ⟨2025, 1, 14, 7200⟩, ⟨2025, 1, 1, 0⟩, ⟨2025, 1, 1, 0⟩⟩
     let now : GoInstant := ⟨2025, 1, 14, 7200⟩
     (((2025 : Int), (1 : Int), (16 : Int), (0 : Int)) = ((2025 : Int), 1, 16, 0)) ∧
       (recurringDue task (⟨2025, 1, 16, 0⟩ : GoInstant) = false) ∧
       (recurringDue task (⟨2025, 2, 14, 0⟩ : GoInstant) = true ↔
         lexLe (windowStart task (⟨2025, 2, 14, 0⟩ : GoInstant)) ⟨2025, 2, 14, 0⟩ ∧
           lexLe (⟨2025, 2, 14, 0⟩ : GoInstant)
             (windowStop task (⟨2025, 2, 14, 0⟩ : GoInstant)))) := by
  refine ⟨rfl, ?_, ?_⟩
  · exact (c3_satisfied_suppresses_until_next_month _ ⟨2025, 1, 14, 7200⟩
      ⟨2025, 1, 16, 0⟩ ⟨2025, 2, 14, 0⟩ _ (by decide) (by decide) (by decide)
      rfl (by decide) (by decide) (by decide) (by decide)).1 (by decide)
      (by decide)
  · exact (c3_satisfied_suppresses_until_next_month _ ⟨2025, 1, 14, 7200⟩
      ⟨2025, 1, 16, 0⟩ ⟨2025, 2, 14, 0⟩ _ (by decide) (by decide) (by decide)
      rfl (by decide) (by decide) (by decide) (by decide)).2 (by decide)
      (by decide)

/-- C9, counterexample. The claim says that with `w = 0` and no prior
satisfaction the due-now check is true at *every* instant falling on the
effective due calendar day.  At noon of the due day (2025-01-15 12:00, task
due day 15, window 0) the code returns false: `end = due = midnight`, and noon
is `After(end)`.  Only the exact midnight instant is due. -/
theorem c9_counterexample :
    (let task : Task := ⟨1, 1, none, "rent", "", none, false, true, "monthly",
      15, 0, none, ⟨2025, 1, 1, 0⟩, ⟨2025, 1, 1, 0⟩⟩
     recurringDue task ⟨2025, 1, 15, 43200⟩ = false ∧
       recurringDue task ⟨2025, 1, 15, 0⟩ = true) := by
  exact ⟨by decide, by decide⟩

/-- C9, amended. For a recurring monthly task with `w = 0` and no prior
satisfaction, the window collapses to the single *instant* starting the
effective due day: due-now is true exactly when `now` is the midnight instant
`dueDateFor task now`, and false at every other instant — including later
instants of the due day itself. -/
theorem c9_zero_window_single_instant (task : Task) (now : GoInstant)
    (hrec : task.isRecurring = true)
    (htype : goStringToLower task.recurType = "monthly")
    (hday : 1 ≤ task.recurDay)
    (hw0 : task.recurWindow = 0)
    (hsat : task.lastCompletedAt = none) :
    recurringDue task now = true ↔ now = dueDateFor task now := by
  have hs : windowStart task now = dueDateFor task now := by
    unfold windowStart addDaysInt
    rw [hw0]
    rfl
  have he : windowStop task now = dueDateFor task now := by
    unfold windowStop addDaysInt
    rw [hw0]
    rfl
  have base := recurringDue_iff_of_not_satisfied now hrec htype hday
    (by unfold lastSatisfiedInWindow; rw [hsat])
  rw [base, hs, he]
  constructor
  · rintro ⟨h1, h2⟩
    exact (lexLe_antisymm h2 h1)
  · intro h
    rw [← h]
    exact ⟨lexLe_refl _, lexLe_refl _⟩

/-- Closed witness for C9 (amended) at the exact midnight of the due day. -/
theorem c9_zero_window_single_instant_witness :
    (let task : Task := ⟨1, 1, none, "rent", "", none, false, true, "monthly",
      15, 0, none, ⟨2025, 1, 1, 0⟩, ⟨2025, 1, 1, 0⟩⟩
     let now : GoInstant := ⟨2025, 1, 15, 0⟩
     task.recurWindow = 0 ∧ task.lastCompletedAt = none ∧
       (recurringDue task now = true ↔ now = dueDateFor task now)) :=
  ⟨by decide, by decide,
    c9_zero_window_single_instant _ _ (by decide) (by decide) (by decide)
      (by decide) (by decide)⟩

/-- C10. The pre-confirmation check `isRecurringDoneInWindow` (bot.go)
agrees with the satisfied-suppression sub-check `lastSatisfiedInWindow` used
inside the digest's `recurringDue` (computed against the same
`windowStart`/`windowStop` for `now`), for every recurring task with a
positive recurrence day — the domain the data model guarantees
(`RecurDay ∈ [1, 31]`); outside it `recurringDue` bails out before the
sub-check and Go's `time.Date` day normalization, not modelled here, kicks in. -/
theorem c10_done_check_agrees (task : Task) (now : GoInstant)
    (hrec : task.isRecurring = true)
    (hday : 1 ≤ task.recurDay) :
    isRecurringDoneInWindow task now =
      lastSatisfiedInWindow task (windowStart task now) (windowStop task now)
        now := by
  unfold isRecurringDoneInWindow lastSatisfiedInWindow windowStart windowStop
    dueDateFor effectiveDueDay
  rw [hrec]
  cases hl : task.lastCompletedAt with
  | none => simp
  | some last =>
      simp only [Bool.not_true, Bool.false_eq_true, if_false]
      cases hb1 : last.before (addDaysInt
          ⟨now.year, now.month,
            if task.recurDay > daysInMonth now.month now.year then
              daysInMonth now.month now.year else task.recurDay, 0⟩
          (-task.recurWindow)) <;>
        cases hb2 : GoInstant.before (addDaysInt
            ⟨now.year, now.month,
              if task.recurDay > daysInMonth now.month now.year then
                daysInMonth now.month now.year else task.recurDay, 0⟩
            task.recurWindow) last <;>
          cases hm : (last.month == now.month) <;>
            cases hy : (last.year == now.year) <;>
              simp [hb1, hb2, hm, hy, bne]

/-- Closed witness for C10: a satisfied recurring task checked inside its
window. -/
theorem c10_done_check_agrees_witness :
    (let task : Task := ⟨1, 1, none, "rent", "", none, false, true, "monthly",
      31, 2, some ⟨2025, 4, 29, 100⟩, ⟨2025, 1, 1, 0⟩, ⟨2025, 1, 1, 0⟩⟩
     let now : GoInstant := ⟨2025, 4, 30, 0⟩
     task.isRecurring = true ∧ 1 ≤ task.recurDay ∧
       isRecurringDoneInWindow task now =
         lastSatisfiedInWindow task (windowStart task now)
           (windowStop task now) now) :=
  ⟨by decide, by decide, c10_done_check_agrees _ _ (by decide) (by decide)⟩

inductive ServiceError where
  | recordNotFound
  | validation (msg : String)
deriving DecidableEq

/-- Embedding of `model.Category`. -/
structure Category where
  id : Nat
  userID : Nat
  name : String
deriving DecidableEq

def nextTaskId (store : List Task) : Nat :=
  (store.map Task.id).foldr max 0 + 1

def nextCategoryId (cats : List Category) : Nat :=
  (cats.map Category.id).foldr max 0 + 1

/-- Embedding of `TaskRepository.FindByID`: gorm `First` scoped by
`user_id = ? AND id = ?`, returning `ErrRecordNotFound` when no row matches. -/
def findByID (store : List Task) (userID taskID : Nat) :
    Except ServiceError Task :=
  match store.find? (fun t => t.userID == userID && t.id == taskID) with
  | some t => .ok t
  | none => .error .recordNotFound

/-- gorm `Save` on a fetched row: update the row with the same primary key. -/
def saveTask (store : List Task) (t' : Task) : List Task :=
  store.map (fun t => if t.id == t'.id then t' else t)

/-- Embedding of `TaskRepository.MarkCompleted`. -/
def markCompleted (store : List Task) (task : Task) (completedAt : GoInstant) :
    List Task × Task :=
  let t' := { task with isCompleted := true, lastCompletedAt := some completedAt }
  (saveTask store t', t')

/-- Embedding of `TaskRepository.MarkRecurringDone`: stores the completion
time only, leaving `IsCompleted` untouched. -/
def markRecurringDone (store : List Task) (task : Task)
    (completedAt : GoInstant) : List Task × Task :=
  let t' := { task with lastCompletedAt := some completedAt }
  (saveTask store t', t')

/-- Embedding of `TaskRepository.Delete` (part_003 lines 64–71): gorm
`Delete` with a `user_id = ? AND id = ?` condition removes the matching rows
and reports an error only on a storage failure — deleting zero rows is *not*
an error, so an absent or foreign task id yields `.ok` with the store
unchanged. -/
def repoDeleteTask (store : List Task) (userID taskID : Nat) :
    Except ServiceError (List Task) :=
  .ok (store.filter (fun t => !(t.userID == userID && t.id == taskID)))

/-- Embedding of `CategoryRepository.GetOrCreate`: owner-scoped,
case-sensitive exact-name lookup, creating on miss; `("" , none)` when the
name is empty (the service only calls it for non-empty names). -/
def getOrCreateCategory (cats : List Category) (userID : Nat) (name : String) :
    List Category × Option Category :=
  if name == "" then (cats, none)
  else
    match cats.find? (fun c => c.userID == userID && c.name == name) with
    | some c => (cats, some c)
    | none =>
        let c : Category := ⟨nextCategoryId cats, userID, name⟩
        (cats ++ [c], some c)

/-- Embedding of `service.TaskInput`. -/
structure TaskInput where
  title : String
  description : String
  category : String
  deadline : Option GoInstant
  isRecurring : Bool
  recurDay : Int
  recurWindow : Int
deriving DecidableEq

/-- Go zero value of `service.TaskInput`. -/
def emptyTaskInput : TaskInput := ⟨"", "", "", none, false, 0, 0⟩

/-- Embedding of `TaskService.CreateTask`.  `now` stands for the
gorm-populated `CreatedAt`/`UpdatedAt` timestamps.  Fields not listed in the
Go struct literal take their zero values; recurring drafts additionally fix
`RecurType = "monthly"` and copy day/window. -/
def createTask (store : List Task) (cats : List Category) (userID : Nat)
    (input : TaskInput) (now : GoInstant) :
    Except ServiceError (List Task × List Category × Task) :=
  if input.title == "" then .error (.validation "title is required")
  else
    let catRes := getOrCreateCategory cats userID input.category
    let base : Task :=
      { id := nextTaskId store, userID := userID,
        categoryID := catRes.2.map Category.id, title := input.title,
        description := input.description, deadline := input.deadline,
        isCompleted := false, isRecurring := input.isRecurring,
        recurType := "", recurDay := 0, recurWindow := 0,
        lastCompletedAt := none, createdAt := now, updatedAt := now }
    let task :=
      if input.isRecurring then
        { base with
          recurType := "monthly", recurDay := input.recurDay,
          recurWindow := input.recurWindow }
      else base
    .ok (store ++ [task], catRes.1, task)

/-- Embedding of `TaskService.CompleteTask`: load scoped to the owner, then
`MarkRecurringDone` for recurring tasks and `MarkCompleted` for one-off
tasks; returns the updated task. -/
def completeTask (store : List Task) (userID taskID : Nat)
    (completedAt : GoInstant) : Except ServiceError (List Task × Task) :=
  match findByID store userID taskID with
  | .error e => .error e
  | .ok task =>
      if task.isRecurring then .ok (markRecurringDone store task completedAt)
      else .ok (markCompleted store task completedAt)

/-- Embedding of `TaskService.DeleteTask`: a direct pass-through to the
repository delete. -/
def deleteTask (store : List Task) (userID taskID : Nat) :
    Except ServiceError (List Task) :=
  repoDeleteTask store userID taskID

/-- C6, counterexample. The claim says `DeleteTask` fails with NotFound
when the task is absent; on an empty store (task 5 of user 1 certainly
absent) it instead succeeds, returning the unchanged store. -/
theorem c6_counterexample :
    deleteTask ([] : List Task) 1 5 = Except.ok [] := rfl

/-- C6, amended. `DeleteTask` removes the matching task regardless of
recurrence and never touches other users' tasks; when the task is absent or
owned by another user it succeeds as a no-op (the store is unchanged) rather
than failing — NotFound for absent/foreign ids is produced only by the
`FindByID` lookup the bot's delete flows perform first. -/
theorem c6_delete_no_notfound (store : List Task) (userID taskID : Nat) :
    ∃ store', deleteTask store userID taskID = .ok store' ∧
      (∀ t, t ∈ store' ↔
        (t ∈ store ∧ ¬(t.userID = userID ∧ t.id = taskID))) ∧
      ((∀ t ∈ store, ¬(t.userID = userID ∧ t.id = taskID)) →
        store' = store) ∧
      (findByID store userID taskID = .error .recordNotFound ↔
        ∀ t ∈ store, ¬(t.userID = userID ∧ t.id = taskID)) := by
  refine ⟨store.filter (fun t => !(t.userID == userID && t.id == taskID)),
    rfl, ?_, ?_, ?_⟩
  · intro t
    simp [List.mem_filter, and_comm]
    tauto
  · intro h
    apply List.filter_eq_self.mpr
    intro t ht
    have := h t ht
    simp
    tauto
  · unfold findByID
    cases hf : store.find? (fun t => t.userID == userID && t.id == taskID) with
    | some t =>
        have hp := List.find?_some hf
        have hm := List.mem_of_find?_eq_some hf
        simp only [Bool.and_eq_true, beq_iff_eq] at hp
        simp only [reduceCtorEq, false_iff, not_forall]
        exact ⟨t, hm, not_not_intro ⟨hp.1, hp.2⟩⟩
    | none =>
        rw [List.find?_eq_none] at hf
        simp only [true_iff]
        intro t ht
        have := hf t ht
        simp at this
        tauto

/-- Closed witness for C6 on a two-task store: one matching task of user 1,
one task of user 2 with the same id. -/
theorem c6_delete_no_notfound_witness :
    ∃ store',
      deleteTask
        [⟨5, 1, none, "a", "", none, false, true, "monthly", 3, 1, none,
          ⟨2025, 1, 1, 0⟩, ⟨2025, 1, 1, 0⟩⟩,
         ⟨5, 2, none, "b", "", none, false, false, "", 0, 0, none,
          ⟨2025, 1, 1, 0⟩, ⟨2025, 1, 1, 0⟩⟩] 1 5 = .ok store' ∧
      (∀ t, t ∈ store' ↔
        (t ∈ [⟨5, 1, none, "a", "", none, false, true, "monthly", 3, 1, none,
            ⟨2025, 1, 1, 0⟩, ⟨2025, 1, 1, 0⟩⟩,
           (⟨5, 2, none, "b", "", none, false, false, "", 0, 0, none,
            ⟨2025, 1, 1, 0⟩, ⟨2025, 1, 1, 0⟩⟩ : Task)] ∧
          ¬(t.userID = 1 ∧ t.id = 5))) ∧
      ((∀ t ∈ [⟨5, 1, none, "a", "", none, false, true, "monthly", 3, 1, none,
            ⟨2025, 1, 1, 0⟩, ⟨2025, 1, 1, 0⟩⟩,
           (⟨5, 2, none, "b", "", none, false, false, "", 0, 0, none,
            ⟨2025, 1, 1, 0⟩, ⟨2025, 1, 1, 0⟩⟩ : Task)],
          ¬(t.userID = 1 ∧ t.id = 5)) → store' =
            [⟨5, 1, none, "a", "", none, false, true, "monthly", 3, 1, none,
              ⟨2025, 1, 1, 0⟩, ⟨2025, 1, 1, 0⟩⟩,
             ⟨5, 2, none, "b", "", none, false, false, "", 0, 0, none,
              ⟨2025, 1, 1, 0⟩, ⟨2025, 1, 1, 0⟩⟩]) ∧
      (findByID
          [⟨5, 1, none, "a", "", none, false, true, "monthly", 3, 1, none,
            ⟨2025, 1, 1, 0⟩, ⟨2025, 1, 1, 0⟩⟩,
           ⟨5, 2, none, "b", "", none, false, false, "", 0, 0, none,
            ⟨2025, 1, 1, 0⟩, ⟨2025, 1, 1, 0⟩⟩] 1 5 =
          .error .recordNotFound ↔
        ∀ t ∈ [⟨5, 1, none, "a", "", none, false, true, "monthly", 3, 1, none,
            ⟨2025, 1, 1, 0⟩, ⟨2025, 1, 1, 0⟩⟩,
           (⟨5, 2, none, "b", "", none, false, false, "", 0, 0, none,
            ⟨2025, 1, 1, 0⟩, ⟨2025, 1, 1, 0⟩⟩ : Task)],
          ¬(t.userID = 1 ∧ t.id = 5)) :=
  c6_delete_no_notfound _ 1 5

/-- The data-model invariant: a recurring task never has `completed = true`. -/
def recurringNeverCompleted (store : List Task) : Prop :=
  ∀ t ∈ store, t.isRecurring = true → t.isCompleted = false

instance (store : List Task) : Decidable (recurringNeverCompleted store) := by
  unfold recurringNeverCompleted; infer_instance

/-- C7. No lifecycle operation sets `completed = true` on a recurring
task: `CompleteTask` on a recurring task sets `last_completed_at` to the
given instant without touching `completed`, on a one-off task it sets both;
and `CreateTask`, `CompleteTask` and `DeleteTask` all preserve the invariant
that a recurring task never has `completed = true`. -/
theorem c7_recurring_never_completed_invariant
    (store : List Task) (cats : List Category) (userID taskID : Nat)
    (input : TaskInput) (completedAt : GoInstant)
    (hinv : recurringNeverCompleted store) :
    (∀ store' t', completeTask store userID taskID completedAt =
        .ok (store', t') →
      t'.lastCompletedAt = some completedAt ∧
      (∀ t0, findByID store userID taskID = .ok t0 →
        t'.isRecurring = t0.isRecurring ∧
        (t0.isRecurring = true → t'.isCompleted = t0.isCompleted) ∧
        (t0.isRecurring = false → t'.isCompleted = true)) ∧
      recurringNeverCompleted store') ∧
    (∀ store' cats' t', createTask store cats userID input completedAt =
        .ok (store', cats', t') →
      t'.isCompleted = false ∧ recurringNeverCompleted store') ∧
    (∀ store', deleteTask store userID taskID = .ok store' →
      recurringNeverCompleted store') := by
  refine ⟨?_, ?_, ?_⟩
  · intro store' t' h
    unfold completeTask at h
    cases hf : findByID store userID taskID with
    | error e => rw [hf] at h; exact absurd h (by simp)
    | ok task =>
        rw [hf] at h
        have htaskmem : task ∈ store := by
          unfold findByID at hf
          cases hg : store.find? (fun t => t.userID == userID && t.id == taskID) with
          | some u =>
              rw [hg] at hf
              simp only [Except.ok.injEq] at hf
              exact hf ▸ List.mem_of_find?_eq_some hg
          | none => rw [hg] at hf; exact absurd hf (by simp)
        replace h : (if task.isRecurring = true then
            Except.ok (markRecurringDone store task completedAt)
          else Except.ok (markCompleted store task completedAt)) =
            Except.ok (store', t') := h
        cases hr : task.isRecurring with
        | true =>
            rw [hr] at h
            simp only [markRecurringDone, if_true, Except.ok.injEq,
              Prod.mk.injEq] at h
            obtain ⟨hs, ht⟩ := h
            subst hs; subst ht
            refine ⟨rfl, ?_, ?_⟩
            · intro t0 h0
              simp only [Except.ok.injEq] at h0
              subst h0
              exact ⟨rfl, fun _ => rfl, fun hc => by rw [hc] at hr; cases hr⟩
            · intro t ht'
              unfold saveTask at ht'
              rw [List.mem_map] at ht'
              obtain ⟨u, hu, hut⟩ := ht'
              by_cases he : u.id = task.id
              · simp only [he, beq_self_eq_true, if_true] at hut
                subst hut
                intro _
                simpa using hinv task htaskmem hr
              · have : (u.id == task.id) = false := by simpa using he
                rw [this] at hut
                simp only [Bool.false_eq_true, if_false] at hut
                subst hut
                exact hinv u hu
        | false =>
            rw [hr] at h
            simp only [markCompleted, Bool.false_eq_true, if_false,
              Except.ok.injEq, Prod.mk.injEq] at h
            obtain ⟨hs, ht⟩ := h
            subst hs; subst ht
            refine ⟨rfl, ?_, ?_⟩
            · intro t0 h0
              simp only [Except.ok.injEq] at h0
              subst h0
              refine ⟨rfl, ?_, fun _ => rfl⟩
              intro hc
              exact absurd hc (by simp [hr])
            · intro t ht'
              unfold saveTask at ht'
              rw [List.mem_map] at ht'
              obtain ⟨u, hu, hut⟩ := ht'
              by_cases he : u.id = task.id
              · simp only [he, beq_self_eq_true, if_true] at hut
                subst hut
                intro hc
                have htr : task.isRecurring = true := hc
                simp [hr] at htr
              · have : (u.id == task.id) = false := by simpa using he
                rw [this] at hut
                simp only [Bool.false_eq_true, if_false] at hut
                subst hut
                exact hinv u hu
  · intro store' cats' t' h
    unfold createTask at h
    cases he : (input.title == "") with
    | true => rw [he] at h; exact absurd h (by simp)
    | false =>
        rw [he] at h
        simp only [Bool.false_eq_true, if_false, Except.ok.injEq,
          Prod.mk.injEq] at h
        obtain ⟨hs, _, ht⟩ := h
        constructor
        · rw [← ht]
          cases hri : input.isRecurring <;> simp [hri]
        · intro t hmem hrec
          rw [← hs] at hmem
          rw [List.mem_append] at hmem
          cases hmem with
          | inl hin => exact hinv t hin hrec
          | inr hnew =>
              simp only [List.mem_singleton] at hnew
              subst hnew
              cases hri : input.isRecurring <;> simp [hri]
  · intro store' h
    unfold deleteTask repoDeleteTask at h
    simp only [Except.ok.injEq] at h
    intro t hmem
    rw [← h] at hmem
    exact hinv t (List.mem_of_mem_filter hmem)

/-- Closed witness for C7 on a one-element store holding a recurring task. -/
theorem c7_recurring_never_completed_invariant_witness :
    recurringNeverCompleted
      [⟨1, 1, none, "rent", "", none, false, true, "monthly", 15, 2, none,
        ⟨2025, 1, 1, 0⟩, ⟨2025, 1, 1, 0⟩⟩] ∧
    ((∀ store' t',
        completeTask
          [⟨1, 1, none, "rent", "", none, false, true, "monthly", 15, 2, none,
            ⟨2025, 1, 1, 0⟩, ⟨2025, 1, 1, 0⟩⟩] 1 1 ⟨2025, 1, 15, 0⟩ =
          .ok (store', t') →
      t'.lastCompletedAt = some ⟨2025, 1, 15, 0⟩ ∧
      (∀ t0, findByID
          [⟨1, 1, none, "rent", "", none, false, true, "monthly", 15, 2, none,
            ⟨2025, 1, 1, 0⟩, ⟨2025, 1, 1, 0⟩⟩] 1 1 = .ok t0 →
        t'.isRecurring = t0.isRecurring ∧
        (t0.isRecurring = true → t'.isCompleted = t0.isCompleted) ∧
        (t0.isRecurring = false → t'.isCompleted = true)) ∧
      recurringNeverCompleted store') ∧
    (∀ store' cats' t',
        createTask
          [⟨1, 1, none, "rent", "", none, false, true, "monthly", 15, 2, none,
            ⟨2025, 1, 1, 0⟩, ⟨2025, 1, 1, 0⟩⟩] [] 1 emptyTaskInput
          ⟨2025, 1, 15, 0⟩ = .ok (store', cats', t') →
      t'.isCompleted = false ∧ recurringNeverCompleted store') ∧
    (∀ store',
        deleteTask
          [⟨1, 1, none, "rent", "", none, false, true, "monthly", 15, 2, none,
            ⟨2025, 1, 1, 0⟩, ⟨2025, 1, 1, 0⟩⟩] 1 1 = .ok store' →
      recurringNeverCompleted store')) :=
  ⟨by decide,
    c7_recurring_never_completed_invariant _ [] 1 1 emptyTaskInput
      ⟨2025, 1, 15, 0⟩ (by decide)⟩

/-- The comparator passed to `sort.SliceStable` in `DailySummary`
(part_002 lines 55–66): among undated tasks, newer-created first
(`CreatedAt.After`); an undated task is never less than a dated one; a dated
task is less than an undated one; among dated tasks, earlier deadline first. -/
def pendingLess (a b : Task) : Bool :=
  match a.deadline, b.deadline with
  | none, none => b.createdAt.before a.createdAt
  | none, some _ => false
  | some _, none => true
  | some da, some db => da.before db

/-- Go `sort.SliceStable(x, less)`: a stable sort ascending with respect to
the strict comparator `less`, i.e. a stable merge sort with
`le a b := ¬ less b a`. -/
def sortSliceStable {α : Type} (less : α → α → Bool) (l : List α) : List α :=
  l.mergeSort (fun a b => !less b a)

/-- The pending (one-off) section of `DailySummary` (part_002 lines 40–66):
the non-recurring, non-completed tasks of the repository result, stably
sorted by `pendingLess`.  The input list stands for whatever order
`ListActiveOrRecurring` returned the user's rows in. -/
def dailyPendingSection (tasks : List Task) : List Task :=
  sortSliceStable pendingLess
    (tasks.filter (fun t => !t.isRecurring && !t.isCompleted))

/-- Spec-level ordering of the pending section: dated before undated, dated
by deadline ascending, undated by creation time descending. -/
def pendingOrder (a b : Task) : Prop :=
  match a.deadline, b.deadline with
  | none, none => lexLe b.createdAt a.createdAt
  | none, some _ => False
  | some _, none => True
  | some da, some db => lexLe da db

theorem not_pendingLess_iff (a b : Task) :
    (!pendingLess b a) = true ↔ pendingOrder a b := by
  unfold pendingLess pendingOrder
  cases ha : a.deadline <;> cases hb : b.deadline <;>
    simp [before_eq_false_iff, before_eq_true_iff] <;>
    rcases lexLe_total a.createdAt b.createdAt with h | h <;> tauto

theorem pendingOrder_trans {a b c : Task}
    (h₁ : pendingOrder a b) (h₂ : pendingOrder b c) : pendingOrder a c := by
  unfold pendingOrder at h₁ h₂ ⊢
  cases ha : a.deadline <;> cases hb : b.deadline <;> cases hc : c.deadline <;>
    simp_all <;>
    first
      | exact lexLe_trans h₁ h₂
      | exact lexLe_trans h₂ h₁

theorem pendingOrder_total (a b : Task) :
    pendingOrder a b ∨ pendingOrder b a := by
  unfold pendingOrder
  cases a.deadline <;> cases b.deadline <;> simp <;>
    first
      | exact lexLe_total b.createdAt a.createdAt
      | exact lexLe_total _ _

/-- C8. The digest's pending section contains exactly the non-completed
one-off tasks of the input; it is ordered so that every dated task precedes
every undated one, dated tasks appear by deadline ascending, and undated
tasks appear newer-created first; in particular no undated task is ever
listed before a dated one, regardless of creation order. -/
theorem c8_pending_section_sorted (tasks : List Task) :
    (∀ t, t ∈ dailyPendingSection tasks ↔
      (t ∈ tasks ∧ t.isRecurring = false ∧ t.isCompleted = false)) ∧
    (dailyPendingSection tasks).Pairwise pendingOrder ∧
    (∀ (i j : Fin (dailyPendingSection tasks).length), (i : Nat) < j →
      ((dailyPendingSection tasks).get i).deadline = none →
      ((dailyPendingSection tasks).get j).deadline = none) := by
  have hpw : (dailyPendingSection tasks).Pairwise pendingOrder := by
    have htrans : ∀ (a b c : Task), (!pendingLess b a) = true →
        (!pendingLess c b) = true → (!pendingLess c a) = true := by
      intro a b c hab hbc
      rw [not_pendingLess_iff] at hab hbc ⊢
      exact pendingOrder_trans hab hbc
    have htotal : ∀ (a b : Task),
        ((!pendingLess b a) || (!pendingLess a b)) = true := by
      intro a b
      rcases pendingOrder_total a b with h | h
      · rw [Bool.or_eq_true, not_pendingLess_iff]
        exact Or.inl h
      · rw [Bool.or_eq_true, not_pendingLess_iff a, not_pendingLess_iff b]
        exact Or.inr h
    have hs := List.sorted_mergeSort htrans htotal
      (tasks.filter (fun t => !t.isRecurring && !t.isCompleted))
    exact hs.imp (fun hab => (not_pendingLess_iff _ _).mp hab)
  refine ⟨?_, hpw, ?_⟩
  · intro t
    unfold dailyPendingSection sortSliceStable
    rw [List.mem_mergeSort, List.mem_filter]
    simp
  · intro i j hij hi
    have := (List.pairwise_iff_get.mp hpw) i j (by exact hij)
    unfold pendingOrder at this
    cases hj : ((dailyPendingSection tasks).get j).deadline with
    | none => rfl
    | some d => rw [hi, hj] at this; exact absurd this not_false

/-- Closed witness for C8: an earlier-created undated task and a dated task;
the section is the dated task first, then the undated one. -/
theorem c8_pending_section_sorted_witness :
    (∀ t, t ∈ dailyPendingSection
        [⟨1, 1, none, "Pay rent", "", none, false, false, "", 0, 0, none,
          ⟨2025, 1, 1, 0⟩, ⟨2025, 1, 1, 0⟩⟩,
         ⟨2, 1, none, "Pay rent", "", some ⟨2025, 1, 10, 0⟩, false, false, "",
          0, 0, none, ⟨2025, 1, 2, 0⟩, ⟨2025, 1, 2, 0⟩⟩] ↔
      (t ∈ [⟨1, 1, none, "Pay rent", "", none, false, false, "", 0, 0, none,
          ⟨2025, 1, 1, 0⟩, ⟨2025, 1, 1, 0⟩⟩,
         (⟨2, 1, none, "Pay rent", "", some ⟨2025, 1, 10, 0⟩, false, false,
          "", 0, 0, none, ⟨2025, 1, 2, 0⟩, ⟨2025, 1, 2, 0⟩⟩ : Task)] ∧
        t.isRecurring = false ∧ t.isCompleted = false)) ∧
    (dailyPendingSection
        [⟨1, 1, none, "Pay rent", "", none, false, false, "", 0, 0, none,
          ⟨2025, 1, 1, 0⟩, ⟨2025, 1, 1, 0⟩⟩,
         ⟨2, 1, none, "Pay rent", "", some ⟨2025, 1, 10, 0⟩, false, false, "",
          0, 0, none, ⟨2025, 1, 2, 0⟩, ⟨2025, 1, 2, 0⟩⟩]).Pairwise
      pendingOrder ∧
    (∀ (i j : Fin (dailyPendingSection
        [⟨1, 1, none, "Pay rent", "", none, false, false, "", 0, 0, none,
          ⟨2025, 1, 1, 0⟩, ⟨2025, 1, 1, 0⟩⟩,
         ⟨2, 1, none, "Pay rent", "", some ⟨2025, 1, 10, 0⟩, false, false, "",
          0, 0, none, ⟨2025, 1, 2, 0⟩, ⟨2025, 1, 2, 0⟩⟩]).length),
      (i : Nat) < j →
      ((dailyPendingSection
        [⟨1, 1, none, "Pay rent", "", none, false, false, "", 0, 0, none,
          ⟨2025, 1, 1, 0⟩, ⟨2025, 1, 1, 0⟩⟩,
         ⟨2, 1, none, "Pay rent", "", some ⟨2025, 1, 10, 0⟩, false, false, "",
          0, 0, none, ⟨2025, 1, 2, 0⟩, ⟨2025, 1, 2, 0⟩⟩]).get i).deadline =
        none →
      ((dailyPendingSection
        [⟨1, 1, none, "Pay rent", "", none, false, false, "", 0, 0, none,
          ⟨2025, 1, 1, 0⟩, ⟨2025, 1, 1, 0⟩⟩,
         ⟨2, 1, none, "Pay rent", "", some ⟨2025, 1, 10, 0⟩, false, false, "",
          0, 0, none, ⟨2025, 1, 2, 0⟩, ⟨2025, 1, 2, 0⟩⟩]).get j).deadline =
        none) :=
  c8_pending_section_sorted _

theorem dropWhile_head_fails (p : Char → Bool) (l : List Char) :
    List.dropWhile p (List.rdropWhile p (List.dropWhile p l)) =
      List.rdropWhile p (List.dropWhile p l) := by
  obtain ⟨t, ht⟩ := List.rdropWhile_prefix p (List.dropWhile p l)
  cases hR : List.rdropWhile p (List.dropWhile p l) with
  | nil => rfl
  | cons a R' =>
      have hDcons : List.dropWhile p l = a :: (R' ++ t) := by
        rw [← ht, hR]
        rfl
      have h0 := List.head?_dropWhile_not p l
      rw [hDcons] at h0
      simp only [List.head?_cons] at h0
      rw [List.dropWhile_cons_of_neg (by simp [h0])]

theorem goTrimSpace_idem (s : String) :
    goTrimSpace (goTrimSpace s) = goTrimSpace s := by
  show (⟨((((((s.data.dropWhile isGoSpace).reverse.dropWhile
    isGoSpace).reverse).dropWhile isGoSpace).reverse.dropWhile
    isGoSpace).reverse : List Char)⟩ : String) = _
  have hr : ∀ l : List Char,
      ((l.dropWhile isGoSpace).reverse.dropWhile isGoSpace).reverse =
        List.rdropWhile isGoSpace (l.dropWhile isGoSpace) := fun l => rfl
  rw [goTrimSpace, hr, hr, dropWhile_head_fails, List.rdropWhile_idempotent]

/-- The lowered, trimmed input value shared by all the bot's token
recognizers (each Go recognizer computes
`strings.ToLower(strings.TrimSpace(text))` once). -/
def normalizedInput (text : String) : String :=
  goStringToLower (goTrimSpace text)

def btnSkip : String := "⏭️ Пропустить"
def btnYes : String := "Да"
def btnNo : String := "Нет"
def btnConfirm : String := "✅ Подтвердить"
def btnCancel : String := "↩️ Отмена"
def btnCancelDialog : String := "⏪ Отменить ввод"
def menuLabelNewTask : String := "➕ Новая задача"
def menuLabelTasks : String := "📋 Задачи"
def menuLabelCategories : String := "📂 Категории"
def menuLabelHelp : String := "ℹ️ Помощь"

/-- Embedding of `isSkipInput` (bot.go). -/
def isSkipInput (text : String) : Bool :=
  normalizedInput text == "-" ||
    normalizedInput text == goStringToLower btnSkip ||
    normalizedInput text == "пропустить" || normalizedInput text == "skip"

/-- Embedding of `isConfirmInput` (bot.go). -/
def isConfirmInput (text : String) : Bool :=
  normalizedInput text == goStringToLower btnConfirm ||
    normalizedInput text == "подтвердить" || normalizedInput text == "да"

/-- Embedding of `isCancelInput` (bot.go). -/
def isCancelInput (text : String) : Bool :=
  normalizedInput text == goStringToLower btnCancel ||
    normalizedInput text == "отмена"

/-- Embedding of `isCancelDialogInput` (bot.go). -/
def isCancelDialogInput (text : String) : Bool :=
  normalizedInput text == goStringToLower btnCancelDialog ||
    normalizedInput text == "отменить ввод" || normalizedInput text == "отмена"

/-- Embedding of `strconv.Atoi` digits: most-significant first, rejecting
non-digits.  (Int-range overflow cannot occur for the bot's 1–2 digit
inputs and is not modelled.) -/
def digitsVal : List Char → Nat → Option Nat
  | [], acc => some acc
  | c :: rest, acc =>
      if c.isDigit then digitsVal rest (acc * 10 + (c.toNat - 48)) else none

/-- Embedding of `strconv.Atoi`: optional sign followed by at least one
digit, nothing else. -/
def goAtoi (s : String) : Option Int :=
  match s.data with
  | [] => none
  | '+' :: rest =>
      if rest.isEmpty then none else (digitsVal rest 0).map Int.ofNat
  | '-' :: rest =>
      if rest.isEmpty then none
      else (digitsVal rest 0).map (fun n => -(n : Int))
  | l => (digitsVal l 0).map Int.ofNat

/-- Embedding of `time.Parse("2006-01-02", text)`: exactly the 10-character
zero-padded form, month `1..12`, day within the month; the parsed deadline is
midnight of that civil day. -/
def goParseDate (s : String) : Option GoInstant :=
  match s.data with
  | [y1, y2, y3, y4, '-', m1, m2, '-', d1, d2] =>
      if y1.isDigit && y2.isDigit && y3.isDigit && y4.isDigit &&
          m1.isDigit && m2.isDigit && d1.isDigit && d2.isDigit then
        let year : Int :=
          ((y1.toNat - 48) * 1000 + (y2.toNat - 48) * 100 +
            (y3.toNat - 48) * 10 + (y4.toNat - 48) : Nat)
        let month : Int := ((m1.toNat - 48) * 10 + (m2.toNat - 48) : Nat)
        let day : Int := ((d1.toNat - 48) * 10 + (d2.toNat - 48) : Nat)
        if 1 ≤ month ∧ month ≤ 12 ∧ 1 ≤ day ∧ day ≤ daysInMonth month year
        then some ⟨year, month, day, 0⟩
        else none
      else none
  | _ => none

/-- Embedding of the `conversationStage` enum (bot.go). -/
inductive Stage where
  | stageNone
  | stageTitle
  | stageDescription
  | stageCategory
  | stageDeadline
  | stageRecurring
  | stageRecurringDay
  | stageRecurringWindow
deriving DecidableEq

/-- Embedding of `conversationState` (bot.go). -/
structure ConvState where
  stage : Stage
  input : TaskInput
deriving DecidableEq

/-- Outcome of one `handleConversation` turn: the conversation is kept with a
(possibly updated) state, or `finishTaskCreation` is invoked with the
accumulated draft and the conversation cleared, or the default branch resets
it. -/
inductive ConvOutcome where
  | keep (st : ConvState)
  | create (input : TaskInput)
  | reset
deriving DecidableEq

/-- Embedding of `handleConversation` (bot.go lines 1273–1342), as the pure
transition on the conversation state: the handler first trims the message
text, then dispatches on the current stage. -/
def conversationStep (st : ConvState) (rawText : String) : ConvOutcome :=
  let text := goTrimSpace rawText
  match st.stage with
  | .stageTitle =>
      .keep ⟨.stageDescription, { st.input with title := text }⟩
  | .stageDescription =>
      .keep ⟨.stageCategory,
        if isSkipInput text then st.input
        else { st.input with description := text }⟩
  | .stageCategory =>
      .keep ⟨.stageDeadline,
        if isSkipInput text then st.input
        else { st.input with category := text }⟩
  | .stageDeadline =>
      if isSkipInput text then .keep ⟨.stageRecurring, st.input⟩
      else
        match goParseDate text with
        | none => .keep ⟨.stageDeadline, st.input⟩
        | some d => .keep ⟨.stageRecurring, { st.input with deadline := some d }⟩
  | .stageRecurring =>
      let lower := goStringToLower text
      if lower == "да" || lower == "yes" || lower == "y" then
        .keep ⟨.stageRecurringDay, { st.input with isRecurring := true }⟩
      else if lower == "нет" || lower == "no" || lower == "n" || lower == "-"
      then .create { st.input with isRecurring := false }
      else .keep ⟨.stageRecurring, st.input⟩
  | .stageRecurringDay =>
      match goAtoi text with
      | none => .keep ⟨.stageRecurringDay, st.input⟩
      | some day =>
          if day < 1 ∨ 31 < day then .keep ⟨.stageRecurringDay, st.input⟩
          else .keep ⟨.stageRecurringWindow, { st.input with recurDay := day }⟩
  | .stageRecurringWindow =>
      match goAtoi text with
      | none => .keep ⟨.stageRecurringWindow, st.input⟩
      | some window =>
          if window < 0 ∨ 14 < window then
            .keep ⟨.stageRecurringWindow, st.input⟩
          else .create { st.input with recurWindow := window }
  | .stageNone => .reset

/-- Embedding of `confirmationAction` (bot.go). -/
inductive ConfirmAction where
  | complete
  | delete
deriving DecidableEq

/-- Embedding of `confirmationRequest` (bot.go). -/
structure ConfirmationRequest where
  taskID : Nat
  action : ConfirmAction
deriving DecidableEq

/-- The per-user slice of the bot's two guarded maps
(`conversations[userID]`, `confirmations[userID]`): a single message only
ever touches the sender's entries, so the per-user projection is faithful. -/
structure UserSlots where
  conversation : Option ConvState
  confirmation : Option ConfirmationRequest
deriving DecidableEq

/-- The guarded executions a message turn can trigger through the
Confirmation Gate.  `other` covers every reply that performs no guarded
complete/delete dispatch (prompts, listings, menu, task creation; the
`/complete` and `/delete` commands perform direct unguarded lifecycle calls
and are outside the gate). -/
inductive BotEffect where
  | guardedComplete (taskID : Nat)
  | guardedDelete (taskID : Nat)
  | other
deriving DecidableEq

inductive MenuAlias where
  | newTask
  | tasks
  | categories
  | help
deriving DecidableEq

/-- Embedding of `handleMenuAlias`'s dispatch switch. -/
def menuAliasOf (text : String) : Option MenuAlias :=
  if normalizedInput text == goStringToLower menuLabelNewTask then
    some .newTask
  else if normalizedInput text == goStringToLower menuLabelTasks then
    some .tasks
  else if normalizedInput text == goStringToLower menuLabelCategories then
    some .categories
  else if normalizedInput text == goStringToLower menuLabelHelp then
    some .help
  else none

/-- Telegram marks bot commands with a `bot_command` entity at offset 0; for
private-chat text this is a leading slash. -/
def msgIsCommand (text : String) : Bool :=
  match text.data with
  | [] => false
  | c :: _ => c == '/'

/-- Embedding of `handleConfirmationResponse` (bot.go lines 1441–1462): the
affirmative token clears the slot and dispatches the guarded action
(`deleteTaskAndRefresh` or `completeTaskAndRefresh`); the negative token
clears the slot without executing; anything else re-prompts keeping the
slot. -/
def handleConfirmationResponse (slots : UserSlots) (rawText : String)
    (req : ConfirmationRequest) : UserSlots × BotEffect :=
  let text := goTrimSpace rawText
  if isConfirmInput text then
    ({ slots with confirmation := none },
      match req.action with
      | .complete => BotEffect.guardedComplete req.taskID
      | .delete => BotEffect.guardedDelete req.taskID)
  else if isCancelInput text then
    ({ slots with confirmation := none }, .other)
  else (slots, .other)

/-- The slot effects of `handleCommand`: `/newtask` opens a fresh
conversation at the title stage, `/cancel` clears the conversation; no
command touches the confirmation slot or dispatches through the gate. -/
def handleCommandStep (slots : UserSlots) (text : String) :
    UserSlots × BotEffect :=
  let cmd : String := ⟨(text.data.drop 1).takeWhile
    (fun c => !(c == ' ' || c == '@'))⟩
  if cmd == "newtask" then
    ({ slots with conversation := some ⟨.stageTitle, emptyTaskInput⟩ }, .other)
  else if cmd == "cancel" then
    ({ slots with conversation := none }, .other)
  else (slots, .other)

/-- Embedding of `handleMessage`'s dispatch chain (bot.go lines 1150–1182)
for one inbound private text message: cancel-dialog token (non-command)
clears both slots; menu aliases (non-command) run their handler —
`➕ Новая задача` opens a fresh conversation; commands go to
`handleCommand`; then a pending confirmation takes priority over an open
conversation; an unrecognized message with neither is answered with a
hint. -/
def handleMessageStep (slots : UserSlots) (text : String) :
    UserSlots × BotEffect :=
  if !msgIsCommand text && isCancelDialogInput text then
    ({ conversation := none, confirmation := none }, .other)
  else if !msgIsCommand text && (menuAliasOf text).isSome then
    match menuAliasOf text with
    | some .newTask =>
        ({ slots with conversation := some ⟨.stageTitle, emptyTaskInput⟩ },
          .other)
    | _ => (slots, .other)
  else if msgIsCommand text then handleCommandStep slots text
  else
    match slots.confirmation with
    | some req => handleConfirmationResponse slots text req
    | none =>
        match slots.conversation with
        | some st =>
            match conversationStep st text with
            | .keep st' => ({ slots with conversation := some st' }, .other)
            | .create _ => ({ slots with conversation := none }, .other)
            | .reset => ({ slots with conversation := none }, .other)
        | none => (slots, .other)

theorem isConfirmInput_goTrimSpace (text : String) :
    isConfirmInput (goTrimSpace text) = isConfirmInput text := by
  unfold isConfirmInput normalizedInput
  rw [goTrimSpace_idem]

theorem affirmative_classification {text : String}
    (h : isConfirmInput text = true) :
    isCancelDialogInput text = false ∧ menuAliasOf text = none := by
  have hv : (normalizedInput text = goStringToLower btnConfirm ∨
      normalizedInput text = "подтвердить") ∨ normalizedInput text = "да" := by
    simpa [isConfirmInput, Bool.or_eq_true, beq_iff_eq] using h
  unfold isCancelDialogInput menuAliasOf
  rcases hv with (hv | hv) | hv <;> rw [hv] <;> exact ⟨by decide, by decide⟩

/-- C4. With a pending confirmation and no open conversation, an
affirmative response dispatches the guarded action (complete or delete)
through the gate exactly once and clears the single slot; a second
affirmative response for the same originally-pending action finds the slot
empty and is a no-op that dispatches nothing. -/
theorem c4_gate_executes_once (slots : UserSlots) (text : String)
    (tid : Nat) (act : ConfirmAction)
    (hpend : slots.confirmation = some ⟨tid, act⟩)
    (hconv : slots.conversation = none)
    (hcmd : msgIsCommand text = false)
    (haff : isConfirmInput text = true) :
    (handleMessageStep slots text).2 =
      (match act with
       | .complete => BotEffect.guardedComplete tid
       | .delete => BotEffect.guardedDelete tid) ∧
    (handleMessageStep slots text).1.confirmation = none ∧
    (handleMessageStep (handleMessageStep slots text).1 text).2 =
      BotEffect.other ∧
    (handleMessageStep (handleMessageStep slots text).1 text).1.confirmation =
      none := by
  obtain ⟨hcd, hma⟩ := affirmative_classification haff
  have haff' : isConfirmInput (goTrimSpace text) = true := by
    rw [isConfirmInput_goTrimSpace]; exact haff
  have h1 : handleMessageStep slots text =
      ({ slots with confirmation := none },
        match act with
        | .complete => BotEffect.guardedComplete tid
        | .delete => BotEffect.guardedDelete tid) := by
    unfold handleMessageStep handleConfirmationResponse
    simp only [hcmd, hcd, hma, hpend, haff']
    simp
    cases act <;> rfl
  have h2 : handleMessageStep { slots with confirmation := none } text =
      ({ slots with confirmation := none }, BotEffect.other) := by
    unfold handleMessageStep
    simp only [hcmd, hcd, hma]
    simp [hconv]
  rw [h1]
  simp [h2]

/-- Closed witness for C4: pending completion of task 7, response `"Да"`
received twice. -/
theorem c4_gate_executes_once_witness :
    (let slots : UserSlots := ⟨none, some ⟨7, ConfirmAction.complete⟩⟩
     (handleMessageStep slots "Да").2 = BotEffect.guardedComplete 7 ∧
       (handleMessageStep slots "Да").1.confirmation = none ∧
       (handleMessageStep (handleMessageStep slots "Да").1 "Да").2 =
         BotEffect.other ∧
       (handleMessageStep
         (handleMessageStep slots "Да").1 "Да").1.confirmation = none) :=
  c4_gate_executes_once ⟨none, some ⟨7, ConfirmAction.complete⟩⟩ "Да" 7
    ConfirmAction.complete (by decide) (by decide) (by decide) (by decide)

/-- C5, counterexample. The claim says an empty title input re-prompts
the collecting-title state without advancing; the code instead stores the
empty title and advances to the collecting-description stage. -/
theorem c5_counterexample :
    conversationStep ⟨Stage.stageTitle, emptyTaskInput⟩ "" =
      ConvOutcome.keep ⟨Stage.stageDescription, emptyTaskInput⟩ ∧
    Stage.stageDescription ≠ Stage.stageTitle :=
  ⟨by decide, by decide⟩

/-- C5, amended. At the collecting-title stage *any* input — the empty
string included — is stored (trimmed) as the draft title and the
conversation advances to collecting-description; the title field is thus
skippable in the dialog, and the non-empty-title guarantee is enforced only
at creation time, where `CreateTask` rejects an empty title with a
validation error. -/
theorem c5_title_always_advances (st : ConvState) (text : String)
    (h : st.stage = Stage.stageTitle) :
    conversationStep st text =
      ConvOutcome.keep ⟨Stage.stageDescription,
        { st.input with title := goTrimSpace text }⟩ ∧
    (∀ (store : List Task) (cats : List Category) (userID : Nat)
        (input : TaskInput) (now : GoInstant), input.title = "" →
      createTask store cats userID input now =
        .error (.validation "title is required")) := by
  constructor
  · unfold conversationStep
    rw [h]
  · intro store cats userID input now hti
    unfold createTask
    rw [show (input.title == "") = true by simp [hti]]
    simp

/-- Closed witness for C5 (amended): whitespace-only input at the title
stage. -/
theorem c5_title_always_advances_witness :
    (⟨Stage.stageTitle, emptyTaskInput⟩ : ConvState).stage =
      Stage.stageTitle ∧
    (conversationStep ⟨Stage.stageTitle, emptyTaskInput⟩ "   " =
      ConvOutcome.keep ⟨Stage.stageDescription,
        { emptyTaskInput with title := goTrimSpace "   " }⟩ ∧
     (∀ (store : List Task) (cats : List Category) (userID : Nat)
        (input : TaskInput) (now : GoInstant), input.title = "" →
      createTask store cats userID input now =
        .error (.validation "title is required"))) :=
  ⟨rfl, c5_title_always_advances ⟨Stage.stageTitle, emptyTaskInput⟩ "   " rfl⟩

end DailyPlanner
